import Mathlib

/-!
Verification of the BidFTAScraper repository: a shallow embedding of
`bidfta_scraper/scraper.py` and `bidfta_scraper/async_scraper.py`,
with theorems settling the specification claims.

Dynamically typed Python payload values are embedded as `JsonVal`;
Python dicts as association lists (first match wins, insertion order
preserved); raised exceptions as `Option`/`Except` failures; log calls
as explicit `LogEntry` lists.
-/

namespace BidFTA

/-- A dynamically typed JSON-like value, as decoded from the embedded
`__NEXT_DATA__` payload. -/
inductive JsonVal where
  | null : JsonVal
  | bool : Bool → JsonVal
  | num : ℚ → JsonVal
  | str : String → JsonVal
  | arr : List JsonVal → JsonVal
  | obj : List (String × JsonVal) → JsonVal

/-- Python `dict` lookup on an association list: first binding wins. -/
def dictLookup (d : List (String × JsonVal)) (k : String) : Option JsonVal :=
  match d with
  | [] => none
  | (k0, v) :: rest => if k0 = k then some v else dictLookup rest k

/-- Python `dict.get(k, default)`. -/
def dictGetD (d : List (String × JsonVal)) (k : String) (dflt : JsonVal) : JsonVal :=
  (dictLookup d k).getD dflt

/-- A log line, as emitted through the module logger. -/
inductive LogLevel where
  | info : LogLevel
  | warning : LogLevel
  | error : LogLevel
deriving DecidableEq

structure LogEntry where
  level : LogLevel
  msg : String
deriving DecidableEq

/-- One auction listing: the fields of `BidFTAItem` (scraper.py lines 21-34).
Field values keep the dynamic payload type; `search_term` is the Python
`str` argument. -/
structure BidFTAItem where
  title : JsonVal
  current_bid : JsonVal
  image_url : JsonVal
  end_datetime : JsonVal
  time_remaining : JsonVal
  msrp : JsonVal
  condition : JsonVal
  lot_code : JsonVal
  search_term : String
  bids_count : JsonVal
  auction_id : JsonVal

/-- `BidFTAItem.__init__(self, item_data, search_term)`: each field is
`item_data.get(key, default)` with the defaults of scraper.py lines 24-34. -/
def BidFTAItem.init (item_data : List (String × JsonVal)) (search_term : String) :
    BidFTAItem :=
  { title := dictGetD item_data "title" (.str "")
  , current_bid := dictGetD item_data "currentBid" (.num 0)
  , image_url := dictGetD item_data "imageUrl" (.str "")
  , end_datetime := dictGetD item_data "utcEndDateTime" (.str "")
  , time_remaining := dictGetD item_data "itemTimeRemaining" (.str "")
  , msrp := dictGetD item_data "msrp" (.num 0)
  , condition := dictGetD item_data "condition" (.str "")
  , lot_code := dictGetD item_data "lotCode" (.str "")
  , search_term := search_term
  , bids_count := dictGetD item_data "bidsCount" (.num 0)
  , auction_id := dictGetD item_data "auctionId" (.str "") }

/-- `BidFTAItem.to_dict(self)`: the eleven-key dictionary of
scraper.py lines 36-50, in insertion order. -/
def BidFTAItem.to_dict (it : BidFTAItem) : List (String × JsonVal) :=
  [ ("title", it.title)
  , ("current_bid", it.current_bid)
  , ("image_url", it.image_url)
  , ("end_datetime", it.end_datetime)
  , ("time_remaining", it.time_remaining)
  , ("msrp", it.msrp)
  , ("condition", it.condition)
  , ("lot_code", it.lot_code)
  , ("search_term", .str it.search_term)
  , ("bids_count", it.bids_count)
  , ("auction_id", it.auction_id) ]

/-- The ten upstream payload keys read by `BidFTAItem.__init__`. -/
def recognizedKeys : List String :=
  [ "title", "currentBid", "imageUrl", "utcEndDateTime", "itemTimeRemaining"
  , "msrp", "condition", "lotCode", "bidsCount", "auctionId" ]

/-- Configuration of the sequential `BidFTAScraper` (scraper.py lines 55-69). -/
structure ScraperCfg where
  base_url : String
  location_id : String
  request_delay : ℚ

/-- `BidFTAScraper.__init__`: `base_url` is fixed, defaults
`location_id="616"`, `request_delay=2`. -/
def BidFTAScraper.mkCfg (location_id : String) (request_delay : ℚ) : ScraperCfg :=
  { base_url := "https://www.bidfta.com/items"
  , location_id := location_id
  , request_delay := request_delay }

/-- Configuration of `AsyncBidFTAScraper` (async_scraper.py lines 25-41). -/
structure AsyncScraperCfg where
  base_url : String
  location_id : String
  request_delay : ℚ
  max_concurrent_requests : ℕ

def AsyncBidFTAScraper.mkCfg (location_id : String) (request_delay : ℚ)
    (max_concurrent_requests : ℕ) : AsyncScraperCfg :=
  { base_url := "https://www.bidfta.com/items"
  , location_id := location_id
  , request_delay := request_delay
  , max_concurrent_requests := max_concurrent_requests }

/-- `BidFTAScraper.build_url` (scraper.py line 81): f-string concatenation,
the term inserted verbatim. -/
def BidFTAScraper.build_url (s : ScraperCfg) (search_term : String) : String :=
  s.base_url ++ "?pageId=1&itemSearchKeywords=" ++ search_term ++
    "&locations=" ++ s.location_id

/-- `AsyncBidFTAScraper.build_url` (async_scraper.py line 45). -/
def AsyncBidFTAScraper.build_url (s : AsyncScraperCfg) (search_term : String) : String :=
  s.base_url ++ "?pageId=1&itemSearchKeywords=" ++ search_term ++
    "&locations=" ++ s.location_id

/-- Python iteration over a dynamic value, as in `for item_data in raw_items`:
lists yield their elements, strings their characters (one-character strings),
dicts their keys; numbers, booleans and `None` raise `TypeError` (`none`). -/
def pyIterate : JsonVal → Option (List JsonVal)
  | .arr l => some l
  | .str s => some (s.toList.map (fun c => .str (String.mk [c])))
  | .obj fields => some (fields.map (fun p => JsonVal.str p.1))
  | _ => none

/-- `BidFTAItem(item_data, search_term)` applied to a dynamic value: only a
dict has `.get`; any other value raises `AttributeError` (`none`). -/
def BidFTAItem.initDyn : JsonVal → String → Option BidFTAItem
  | .obj d, term => some (BidFTAItem.init d term)
  | _, _ => none

/-- The `for item_data in raw_items: items.append(...)` loop of
`extract_items_from_json`: appends converted records until a construction
raises; yields the records appended before the exception, and whether an
exception was raised. -/
def extractLoop (term : String) : List JsonVal → List BidFTAItem × Bool
  | [] => ([], false)
  | x :: xs =>
    match BidFTAItem.initDyn x term with
    | none => ([], true)
    | some it =>
      let r := extractLoop term xs
      (it :: r.1, r.2)

/-- `v.get(k, default)` on a dynamic value: raises unless `v` is a dict. -/
def jsonGetD (v : JsonVal) (k : String) (dflt : JsonVal) : Except Unit JsonVal :=
  match v with
  | .obj fields => .ok (dictGetD fields k dflt)
  | _ => .error ()

/-- The fixed lookup path
`json_data.get('props', {}).get('pageProps', {}).get('initialData', {}).get('items', [])`
of scraper.py line 96 / async_scraper.py line 51. -/
def itemsPath (json_data : JsonVal) : Except Unit JsonVal := do
  let p ← jsonGetD json_data "props" (.obj [])
  let pp ← jsonGetD p "pageProps" (.obj [])
  let idata ← jsonGetD pp "initialData" (.obj [])
  jsonGetD idata "items" (.arr [])

/-- `extract_items_from_json` (scraper.py lines 83-102; async_scraper.py
lines 47-57 is identical code): any exception during path traversal or the
item loop is caught, an error is logged, and the records appended so far
are returned. -/
def extract_items_from_json (json_data : JsonVal) (search_term : String) :
    List BidFTAItem × List LogEntry :=
  match itemsPath json_data with
  | .error _ => ([], [⟨.error, "Error extracting items"⟩])
  | .ok raw_items =>
    match pyIterate raw_items with
    | none => ([], [⟨.error, "Error extracting items"⟩])
    | some elems =>
      let r := extractLoop search_term elems
      (r.1, if r.2 then [⟨.error, "Error extracting items"⟩] else [])

/-- Whether a dynamic value is a dict. -/
def isObjB : JsonVal → Bool
  | .obj _ => true
  | _ => false

/-- The fields of a dict value (empty for non-dicts). -/
def objFields : JsonVal → List (String × JsonVal)
  | .obj d => d
  | _ => []

/-- Outcome of one HTTP GET, as seen through `requests`/`aiohttp`. -/
inductive FetchResult where
  | connError : FetchResult
  | response : ℕ → String → FetchResult

/-- `BidFTAScraper.scrape_search_term` (scraper.py lines 104-133).
`find` models `BeautifulSoup(response.text).find('script', {'id': '__NEXT_DATA__'})`
(returning the script text when the element is present); `loads` models
`json.loads` (`none` = `JSONDecodeError`); `env` maps each URL to its
transport outcome. Returns the records plus the emitted log lines; note the
`if script_tag:` branch has no `else`, so an absent script falls through to
`return []` with no logging. -/
def BidFTAScraper.scrape_search_term (cfg : ScraperCfg)
    (find : String → Option String) (loads : String → Option JsonVal)
    (env : String → FetchResult) (search_term : String) :
    List BidFTAItem × List LogEntry :=
  match env (BidFTAScraper.build_url cfg search_term) with
  | .connError => ([], [⟨.error, "Request error for term: " ++ search_term⟩])
  | .response status body =>
    if 400 ≤ status then
      ([], [⟨.error, "Request error for term: " ++ search_term⟩])
    else
      match find body with
      | none => ([], [])
      | some content =>
        match loads content with
        | none => ([], [⟨.error, "JSON decode error for term: " ++ search_term⟩])
        | some json_data => extract_items_from_json json_data search_term

/-- `AsyncBidFTAScraper.fetch_page` (async_scraper.py lines 59-69), data
behavior: a client error, or a non-success status via `raise_for_status`,
is logged and yields `None`. (The semaphore and the pacing sleep are
modeled separately by the `stepOn` transition system.) -/
def AsyncBidFTAScraper.fetch_page (env : String → FetchResult) (url : String) :
    Option String × List LogEntry :=
  match env url with
  | .connError => (none, [⟨.error, "Error fetching " ++ url⟩])
  | .response status body =>
    if 400 ≤ status then (none, [⟨.error, "Error fetching " ++ url⟩])
    else (some body, [])

/-- `AsyncBidFTAScraper.scrape_search_term` (async_scraper.py lines 71-93).
`if html_content:` is a Python truthiness test, so an empty body is
skipped exactly like a failed fetch. -/
def AsyncBidFTAScraper.scrape_search_term (cfg : AsyncScraperCfg)
    (find : String → Option String) (loads : String → Option JsonVal)
    (env : String → FetchResult) (search_term : String) :
    List BidFTAItem × List LogEntry :=
  let url := AsyncBidFTAScraper.build_url cfg search_term
  match AsyncBidFTAScraper.fetch_page env url with
  | (none, logs) => ([], logs)
  | (some html_content, logs) =>
    if html_content = "" then ([], logs)
    else
      match find html_content with
      | none =>
        ([], logs ++ [⟨.warning, "No data found for search term: " ++ search_term⟩])
      | some content =>
        match loads content with
        | none =>
          ([], logs ++ [⟨.error, "Error processing search term: " ++ search_term⟩])
        | some json_data =>
          let r := extract_items_from_json json_data search_term
          (r.1, logs ++ r.2 ++ [⟨.info, "Found items for search term: " ++ search_term⟩])

/-- Value of an all-digit character run (`none` when empty or non-digit). -/
def digitsVal (cs : List Char) : Option ℕ :=
  if cs = [] then none
  else cs.foldl (fun acc c =>
    match acc with
    | none => none
    | some n => if c.isDigit then some (10 * n + (c.toNat - 48)) else none) (some 0)

/-- The unsigned part of Python `float(s)` for plain decimal strings:
digits with an optional single decimal point. -/
def parseDecimal (cs : List Char) : Option ℚ :=
  let ip := cs.takeWhile (fun c => c ≠ '.')
  let rest := cs.dropWhile (fun c => c ≠ '.')
  match rest with
  | [] => (digitsVal ip).map (fun n => (n : ℚ))
  | _ :: frac =>
    if ip = [] ∧ frac = [] then none
    else if ip.all Char.isDigit ∧ frac.all Char.isDigit then
      some (((digitsVal (ip ++ frac)).getD 0 : ℚ) / 10 ^ frac.length)
    else none

/-- Python `float(s)` on a decimal string (a failure raises `ValueError`). -/
def parseFloat (s : String) : Option ℚ :=
  match s.toList with
  | '-' :: cs => (parseDecimal cs).map (fun q => -q)
  | '+' :: cs => parseDecimal cs
  | cs => parseDecimal cs

/-- One cell under `df['time_remaining'].astype(float)`: numbers pass
through, booleans become 0/1, strings are parsed; anything else raises. -/
def astypeFloat : JsonVal → Option ℚ
  | .num q => some q
  | .bool b => some (if b then 1 else 0)
  | .str s => parseFloat s
  | _ => none

/-- Round half to even, the rounding of Python `format` with `.2f`. -/
def roundHalfEven (q : ℚ) : ℤ :=
  let f := ⌊q⌋
  let r := q - f
  if r < 1/2 then f
  else if 1/2 < r then f + 1
  else if f % 2 = 0 then f else f + 1

/-- Insert thousands separators into a reversed digit run. -/
def groupRev : List Char → List Char
  | [] => []
  | [c] => [c]
  | [c1, c2] => [c1, c2]
  | c1 :: c2 :: c3 :: rest =>
    match rest with
    | [] => [c1, c2, c3]
    | _ :: _ => c1 :: c2 :: c3 :: ',' :: groupRev rest

/-- Python `f"${x:,.2f}"` on a number: round to cents half-even, fixed two
decimals, comma thousands separators, any sign after the dollar sign. -/
def formatUSD (q : ℚ) : String :=
  let cents := roundHalfEven (q * 100)
  let sign := if cents < 0 then "-" else ""
  let n := cents.natAbs
  let ipStr := String.mk ((groupRev (toString (n / 100)).toList.reverse).reverse)
  let fp := n % 100
  let fpStr := (if fp < 10 then "0" else "") ++ toString fp
  "$" ++ sign ++ ipStr ++ "." ++ fpStr

/-- One cell of `df['current_bid'].apply(lambda x: f"${x:,.2f}")`: numbers
and booleans (Python ints) format; other payload types raise. -/
def formatCurrencyVal : JsonVal → Option String
  | .num q => some (formatUSD q)
  | .bool b => some (formatUSD (if b then 1 else 0))
  | _ => none

/-- A parsed timestamp, the result of `pd.to_datetime` on one cell. The
parser itself is pandas library code, so theorems quantify over it. -/
structure Timestamp where
  raw : String
deriving DecidableEq

/-- A concrete stand-in for `pd.to_datetime` used in witnesses: accepts
every string cell, rejects every other cell type. -/
def parseDTStr : JsonVal → Option Timestamp
  | .str s => some ⟨s⟩
  | _ => none

/-- The exception aborting DataFrame processing, by column statement. -/
inductive AggError where
  | datetimeError : AggError
  | floatError : AggError
  | formatError : AggError
deriving DecidableEq

/-- Apply a per-cell operation down one column; the first cell that raises
aborts the whole column statement (pandas semantics). -/
def colMap {α : Type} (f : BidFTAItem → Option α) (e : AggError) :
    List BidFTAItem → Except AggError (List α)
  | [] => .ok []
  | r :: rs =>
    match f r with
    | none => .error e
    | some a => (colMap f e rs).map (fun l => a :: l)

/-- One processed row of the Result Table: the original columns with
`end_datetime` parsed, `current_bid`/`msrp` reformatted, and the derived
`hours_remaining` column. (Rows are kept as records rather than dicts;
`to_dict` is a lossless renaming of the same eleven fields.) -/
structure OutRow where
  title : JsonVal
  current_bid : String
  image_url : JsonVal
  end_datetime : Timestamp
  time_remaining : JsonVal
  msrp : String
  condition : JsonVal
  lot_code : JsonVal
  search_term : String
  bids_count : JsonVal
  auction_id : JsonVal
  hours_remaining : ℚ

/-- Reassemble rows from the original rows and the four processed columns. -/
def buildRows : List BidFTAItem → List Timestamp → List ℚ → List String →
    List String → List OutRow
  | r :: rs, dt :: dts, h :: hs, cb :: cbs, m :: ms =>
    { title := r.title, current_bid := cb, image_url := r.image_url
    , end_datetime := dt, time_remaining := r.time_remaining, msrp := m
    , condition := r.condition, lot_code := r.lot_code
    , search_term := r.search_term, bids_count := r.bids_count
    , auction_id := r.auction_id, hours_remaining := h } :: buildRows rs dts hs cbs ms
  | _, _, _, _, _ => []

/-- The DataFrame block shared by both `scrape_search_terms`
(scraper.py lines 153-161; async_scraper.py lines 115-123):
`pd.DataFrame(all_items)`, then — only when non-empty — the four column
statements in program order (`pd.to_datetime`, `astype(float) / 3600`,
currency formatting of `current_bid` and of `msrp`). A cell failure raises
out of the whole call; an empty input is returned untouched. -/
def processDF (parseDT : JsonVal → Option Timestamp)
    (all_items : List BidFTAItem) : Except AggError (List OutRow) :=
  match all_items with
  | [] => .ok []
  | _ => do
    let dts ← colMap (fun r => parseDT r.end_datetime) .datetimeError all_items
    let hrs ← colMap (fun r => (astypeFloat r.time_remaining).map (fun q => q / 3600))
      .floatError all_items
    let cbs ← colMap (fun r => formatCurrencyVal r.current_bid) .formatError all_items
    let ms ← colMap (fun r => formatCurrencyVal r.msrp) .formatError all_items
    .ok (buildRows all_items dts hrs cbs ms)

/-- `BidFTAScraper.scrape_search_terms` (scraper.py lines 135-161): for
each term in input order, log, scrape, extend `all_items` (the
`time.sleep(request_delay)` between iterations has no data effect), then
run the DataFrame block; its exception propagates. -/
def BidFTAScraper.scrape_search_terms (cfg : ScraperCfg)
    (find : String → Option String) (loads : String → Option JsonVal)
    (env : String → FetchResult) (parseDT : JsonVal → Option Timestamp)
    (search_terms : List String) :
    Except AggError (List OutRow) × List LogEntry :=
  let run := search_terms.foldl
    (fun (acc : List BidFTAItem × List LogEntry) (term : String) =>
      let r := BidFTAScraper.scrape_search_term cfg find loads env term
      (acc.1 ++ r.1, acc.2 ++ ⟨.info, "Scraping term: " ++ term⟩ :: r.2))
    ([], [])
  (processDF parseDT run.1, run.2)

/-- `asyncio.gather` collection: task `i`'s result lands in slot `i`
whatever the completion order; `order` lists task indices by completion. -/
def gatherFill {α : Type} (results : List α) (dflt : α) (order : List ℕ) : List α :=
  order.foldl (fun acc i => acc.set i (results.getD i dflt))
    (List.replicate results.length dflt)

/-- `AsyncBidFTAScraper.scrape_search_terms` (async_scraper.py lines
95-123): one task per term, all started together, results collected
positionally by `gather` (filled in completion order `order`), flattened
in slot order, then the shared DataFrame block. Logs are kept in slot
order (their realtime interleaving is timing, not data). -/
def AsyncBidFTAScraper.scrape_search_terms (cfg : AsyncScraperCfg)
    (find : String → Option String) (loads : String → Option JsonVal)
    (env : String → FetchResult) (parseDT : JsonVal → Option Timestamp)
    (search_terms : List String) (order : List ℕ) :
    Except AggError (List OutRow) × List LogEntry :=
  let tasks := search_terms.map
    (fun term => AsyncBidFTAScraper.scrape_search_term cfg find loads env term)
  let results := gatherFill tasks ([], []) order
  let all_items := results.foldl (fun acc r => acc ++ r.1) []
  (processDF parseDT all_items, results.foldl (fun acc r => acc ++ r.2) [])

/-- The four display columns `df[['title', 'current_bid',
'hours_remaining', 'search_term']]` of one row. -/
def displayRecord (r : OutRow) : JsonVal × String × ℚ × String :=
  (r.title, r.current_bid, r.hours_remaining, r.search_term)

/-- Observable effects of the Output Step. -/
structure OutEffects where
  logs : List LogEntry
  printed : List String
  displayed : List (JsonVal × String × ℚ × String)
  file_writes : List (String × List OutRow)

/-- `format_results` (scraper.py lines 163-183): an empty table logs
"No items found" and returns; otherwise the header and the four display
columns are printed and, when a path is given, the full table is written. -/
def format_results (df : List OutRow) (save_path : Option String) : OutEffects :=
  match df with
  | [] => { logs := [⟨.info, "No items found"⟩], printed := [], displayed := []
          , file_writes := [] }
  | _ =>
    { logs := match save_path with
        | some p => [⟨.info, "Results saved to " ++ p⟩]
        | none => []
    , printed := ["Found Items:"]
    , displayed := df.map displayRecord
    , file_writes := match save_path with
        | some p => [(p, df)]
        | none => [] }

/-- Control position of one `fetch_page` task relative to the semaphore
(async_scraper.py lines 59-69). The slot is held from the grant of
`async with self.semaphore` until the block exits. -/
inductive Phase where
  | idle : Phase
  | inFlight : Phase
  | responded : Phase
  | sleeping : Phase
  | reading : Phase
  | done : Phase
  | failed : Phase
deriving DecidableEq

/-- Whether a task at this control position holds a semaphore slot:
`inFlight` (awaiting `session.get`), `responded` (status checked),
`sleeping` (inside `asyncio.sleep`), `reading` (awaiting
`response.text()`). `done` and `failed` have exited the block. -/
def holdsSlot : Phase → Bool
  | .inFlight => true
  | .responded => true
  | .sleeping => true
  | .reading => true
  | _ => false

/-- Number of semaphore slots currently held. -/
def holders (s : List Phase) : ℕ := (s.filter (fun p => holdsSlot p)).length

/-- Scheduler events: at each suspension point the event loop resumes one
task. `failFetch` is the `aiohttp.ClientError` handler (connection error or
`raise_for_status`), which returns `None` and exits the block. -/
inductive FetchEvent where
  | acquire : ℕ → FetchEvent
  | respond : ℕ → FetchEvent
  | failFetch : ℕ → FetchEvent
  | startSleep : ℕ → FetchEvent
  | wake : ℕ → FetchEvent
  | release : ℕ → FetchEvent
deriving DecidableEq

/-- One cooperative-scheduler step over the task phases: an event fires
only when its task sits at the matching suspension point, and `acquire`
additionally only when fewer than `maxConc` slots are held — the
counting-semaphore guard. -/
def stepOn (maxConc : ℕ) (s : List Phase) : FetchEvent → Option (List Phase)
  | .acquire i =>
    if s[i]? = some Phase.idle ∧ holders s < maxConc
    then some (s.set i .inFlight) else none
  | .respond i =>
    if s[i]? = some Phase.inFlight then some (s.set i .responded) else none
  | .failFetch i =>
    if s[i]? = some Phase.inFlight then some (s.set i .failed) else none
  | .startSleep i =>
    if s[i]? = some Phase.responded then some (s.set i .sleeping) else none
  | .wake i =>
    if s[i]? = some Phase.sleeping then some (s.set i .reading) else none
  | .release i =>
    if s[i]? = some Phase.reading then some (s.set i .done) else none

/-- Run a whole schedule from a state. -/
def runTrace (maxConc : ℕ) (s : List Phase) : List FetchEvent → Option (List Phase)
  | [] => some s
  | e :: es =>
    match stepOn maxConc s e with
    | none => none
    | some s2 => runTrace maxConc s2 es

/-- All tasks created and not yet started: the state in which
`asyncio.gather` launches the per-term tasks. -/
def initTasks (n : ℕ) : List Phase := List.replicate n Phase.idle

/-- Phases reachable only after the pacing sleep has started. -/
def pacedPhase : Phase → Bool
  | .sleeping => true
  | .reading => true
  | .done => true
  | _ => false

/-- Phases reachable only after the response has returned. -/
def respondedPhase : Phase → Bool
  | .responded => true
  | .sleeping => true
  | .reading => true
  | .done => true
  | _ => false

/-- The successfully-released phase. -/
def donePhase : Phase → Bool
  | .done => true
  | _ => false

/-- `format_async_results` (async_scraper.py lines 125-139): code
identical to `format_results`. -/
def format_async_results (df : List OutRow) (save_path : Option String) : OutEffects :=
  match df with
  | [] => { logs := [⟨.info, "No items found"⟩], printed := [], displayed := []
          , file_writes := [] }
  | _ =>
    { logs := match save_path with
        | some p => [⟨.info, "Results saved to " ++ p⟩]
        | none => []
    , printed := ["Found Items:"]
    , displayed := df.map displayRecord
    , file_writes := match save_path with
        | some p => [(p, df)]
        | none => [] }

end BidFTA

namespace BidFTA

/-- Concatenation of strings is associative (used to normalize URL literals). -/
theorem string_append_assoc (a b c : String) : a ++ b ++ c = a ++ (b ++ c) := by
  cases a with
  | mk da =>
    cases b with
    | mk db =>
      cases c with
      | mk dc => exact congrArg String.mk (List.append_assoc da db dc)

/-- Claim C4: record construction never fails on a missing field — each
absent key yields its documented default (`""` for the text fields,
`0` for `current_bid`, `msrp`, `bids_count`), and `search_term` always
equals the supplied term, never a payload value. -/
theorem C4_record_defaults (d : List (String × JsonVal)) (term : String) :
    (BidFTAItem.init d term).search_term = term
    ∧ (dictLookup d "title" = none → (BidFTAItem.init d term).title = .str "")
    ∧ (dictLookup d "imageUrl" = none → (BidFTAItem.init d term).image_url = .str "")
    ∧ (dictLookup d "utcEndDateTime" = none →
        (BidFTAItem.init d term).end_datetime = .str "")
    ∧ (dictLookup d "itemTimeRemaining" = none →
        (BidFTAItem.init d term).time_remaining = .str "")
    ∧ (dictLookup d "condition" = none → (BidFTAItem.init d term).condition = .str "")
    ∧ (dictLookup d "lotCode" = none → (BidFTAItem.init d term).lot_code = .str "")
    ∧ (dictLookup d "auctionId" = none → (BidFTAItem.init d term).auction_id = .str "")
    ∧ (dictLookup d "currentBid" = none → (BidFTAItem.init d term).current_bid = .num 0)
    ∧ (dictLookup d "msrp" = none → (BidFTAItem.init d term).msrp = .num 0)
    ∧ (dictLookup d "bidsCount" = none → (BidFTAItem.init d term).bids_count = .num 0) :=
  ⟨ rfl
  , fun h => by simp [BidFTAItem.init, dictGetD, h]
  , fun h => by simp [BidFTAItem.init, dictGetD, h]
  , fun h => by simp [BidFTAItem.init, dictGetD, h]
  , fun h => by simp [BidFTAItem.init, dictGetD, h]
  , fun h => by simp [BidFTAItem.init, dictGetD, h]
  , fun h => by simp [BidFTAItem.init, dictGetD, h]
  , fun h => by simp [BidFTAItem.init, dictGetD, h]
  , fun h => by simp [BidFTAItem.init, dictGetD, h]
  , fun h => by simp [BidFTAItem.init, dictGetD, h]
  , fun h => by simp [BidFTAItem.init, dictGetD, h] ⟩

/-- Witness for C4: a raw object carrying only `title`, built with term
`"test"` — every other field is its default and `search_term` is `"test"`. -/
theorem C4_record_defaults_witness :
    (BidFTAItem.init [("title", JsonVal.str "Test Item")] "test").search_term = "test"
    ∧ (BidFTAItem.init [("title", JsonVal.str "Test Item")] "test").image_url = .str ""
    ∧ (BidFTAItem.init [("title", JsonVal.str "Test Item")] "test").end_datetime = .str ""
    ∧ (BidFTAItem.init [("title", JsonVal.str "Test Item")] "test").time_remaining = .str ""
    ∧ (BidFTAItem.init [("title", JsonVal.str "Test Item")] "test").condition = .str ""
    ∧ (BidFTAItem.init [("title", JsonVal.str "Test Item")] "test").lot_code = .str ""
    ∧ (BidFTAItem.init [("title", JsonVal.str "Test Item")] "test").auction_id = .str ""
    ∧ (BidFTAItem.init [("title", JsonVal.str "Test Item")] "test").current_bid = .num 0
    ∧ (BidFTAItem.init [("title", JsonVal.str "Test Item")] "test").msrp = .num 0
    ∧ (BidFTAItem.init [("title", JsonVal.str "Test Item")] "test").bids_count = .num 0 := by
  have h := C4_record_defaults [("title", JsonVal.str "Test Item")] "test"
  exact ⟨h.1, h.2.2.1 rfl, h.2.2.2.1 rfl, h.2.2.2.2.1 rfl, h.2.2.2.2.2.1 rfl,
    h.2.2.2.2.2.2.1 rfl, h.2.2.2.2.2.2.2.1 rfl, h.2.2.2.2.2.2.2.2.1 rfl,
    h.2.2.2.2.2.2.2.2.2.1 rfl, h.2.2.2.2.2.2.2.2.2.2 rfl⟩

/-- Claim C9: `build_url "aquarium"` with location `"616"` is exactly the
documented URL, with `pageId=1`, the three parameters in that order, and in
general the term is inserted into the query string verbatim, unencoded and
unvalidated, in both scrapers. -/
theorem C9_build_url :
    BidFTAScraper.build_url (BidFTAScraper.mkCfg "616" 2) "aquarium"
      = "https://www.bidfta.com/items?pageId=1&itemSearchKeywords=aquarium&locations=616"
    ∧ (∀ term : String, BidFTAScraper.build_url (BidFTAScraper.mkCfg "616" 2) term
      = "https://www.bidfta.com/items?pageId=1&itemSearchKeywords=" ++ term
          ++ "&locations=616")
    ∧ (∀ term : String,
        AsyncBidFTAScraper.build_url (AsyncBidFTAScraper.mkCfg "616" (1/2) 5) term
      = "https://www.bidfta.com/items?pageId=1&itemSearchKeywords=" ++ term
          ++ "&locations=616")
    ∧ (∀ s term, BidFTAScraper.build_url s term
        = s.base_url ++ "?pageId=1&itemSearchKeywords=" ++ term
            ++ "&locations=" ++ s.location_id)
    ∧ (∀ s term, AsyncBidFTAScraper.build_url s term
        = s.base_url ++ "?pageId=1&itemSearchKeywords=" ++ term
            ++ "&locations=" ++ s.location_id) :=
by
  refine ⟨rfl, ?_, ?_, fun _ _ => rfl, fun _ _ => rfl⟩
  · intro term
    show "https://www.bidfta.com/items" ++ "?pageId=1&itemSearchKeywords=" ++ term
        ++ "&locations=" ++ "616" = _
    rw [string_append_assoc (_ ++ _ ++ term) "&locations=" "616"]
    exact rfl
  · intro term
    show "https://www.bidfta.com/items" ++ "?pageId=1&itemSearchKeywords=" ++ term
        ++ "&locations=" ++ "616" = _
    rw [string_append_assoc (_ ++ _ ++ term) "&locations=" "616"]
    exact rfl

/-- Claim C10: `to_dict` returns exactly the eleven documented keys, and
record construction reads only the ten recognized upstream keys: two raw
objects agreeing on those ten keys yield identical records, so a payload
key named `search_term` or `searchTerm` cannot influence any field. -/
theorem C10_to_dict_keys :
    (∀ it : BidFTAItem, (BidFTAItem.to_dict it).map Prod.fst
      = [ "title", "current_bid", "image_url", "end_datetime", "time_remaining"
        , "msrp", "condition", "lot_code", "search_term", "bids_count"
        , "auction_id" ])
    ∧ (∀ (d d' : List (String × JsonVal)) (term : String),
        (∀ k ∈ recognizedKeys, dictLookup d k = dictLookup d' k) →
        BidFTAItem.init d term = BidFTAItem.init d' term) := by
  constructor
  · intro it; rfl
  · intro d d' term h
    have h1 := h "title" (by decide)
    have h2 := h "currentBid" (by decide)
    have h3 := h "imageUrl" (by decide)
    have h4 := h "utcEndDateTime" (by decide)
    have h5 := h "itemTimeRemaining" (by decide)
    have h6 := h "msrp" (by decide)
    have h7 := h "condition" (by decide)
    have h8 := h "lotCode" (by decide)
    have h9 := h "bidsCount" (by decide)
    have h10 := h "auctionId" (by decide)
    unfold BidFTAItem.init dictGetD
    rw [h1, h2, h3, h4, h5, h6, h7, h8, h9, h10]

/-- Witness for C10: a payload consisting only of `search_term` and
`searchTerm` keys builds the same record as the empty payload. -/
theorem C10_to_dict_keys_witness :
    BidFTAItem.init [("search_term", JsonVal.str "evil"), ("searchTerm", JsonVal.str "evil")]
      "real" = BidFTAItem.init [] "real" := by
  exact C10_to_dict_keys.2 _ _ "real" (by intro k hk; fin_cases hk <;> rfl)

/-- The item loop keeps the records built before the first non-dict element
and flags whether any element raised. -/
theorem extractLoop_eq (term : String) (elems : List JsonVal) :
    (extractLoop term elems).1
      = (elems.takeWhile isObjB).map (fun x => BidFTAItem.init (objFields x) term)
    ∧ (extractLoop term elems).2 = elems.any (fun x => !isObjB x) := by
  induction elems with
  | nil => exact ⟨rfl, rfl⟩
  | cons x xs ih =>
    cases x <;>
      simp [extractLoop, BidFTAItem.initDyn, isObjB, objFields, List.takeWhile_cons,
        ih.1, ih.2]

/-- Claim C1 fails on the code: (i) with the `__NEXT_DATA__` script element
absent, the sequential scraper returns an empty sequence but logs nothing —
no warning is emitted (the `if script_tag:` branch has no `else`); (ii) an
exception during traversal does not yield an empty sequence — the records
appended before the exception are returned. -/
theorem C1_extraction_counterexample :
    (BidFTAScraper.scrape_search_term (BidFTAScraper.mkCfg "616" 2)
        (fun _ => none) (fun _ => none)
        (fun _ => FetchResult.response 200 "<html></html>") "aquarium"
      = ([], []))
    ∧ (extract_items_from_json
        (.obj [("props", .obj [("pageProps", .obj [("initialData",
          .obj [("items", .arr [.obj [("title", JsonVal.str "A")], .num 5])])])])])
        "toys"
      = ([BidFTAItem.init [("title", JsonVal.str "A")] "toys"],
         [⟨.error, "Error extracting items"⟩])) :=
  ⟨rfl, rfl⟩

/-- Claim C1 (amended): extraction is total — for every response it yields a
(possibly empty) sequence of records and never raises past its boundary.
If the script element is absent, the sequential scraper silently returns an
empty sequence with no log, while the concurrent scraper (given a non-empty
body) logs a warning and returns an empty sequence. If JSON decoding fails,
both log the error and return an empty sequence. If an exception occurs
during traversal, the error is logged and the records constructed before
the exception (possibly none) are returned. -/
theorem C1_extraction_never_raises (cfg : ScraperCfg) (acfg : AsyncScraperCfg)
    (find : String → Option String) (loads : String → Option JsonVal)
    (env : String → FetchResult) (term : String) :
    (∀ st body, env (BidFTAScraper.build_url cfg term) = .response st body →
      st < 400 → find body = none →
      BidFTAScraper.scrape_search_term cfg find loads env term = ([], []))
    ∧ (∀ st body, env (AsyncBidFTAScraper.build_url acfg term) = .response st body →
      st < 400 → body ≠ "" → find body = none →
      AsyncBidFTAScraper.scrape_search_term acfg find loads env term
        = ([], [⟨.warning, "No data found for search term: " ++ term⟩]))
    ∧ (∀ st body content, env (BidFTAScraper.build_url cfg term) = .response st body →
      st < 400 → find body = some content → loads content = none →
      BidFTAScraper.scrape_search_term cfg find loads env term
        = ([], [⟨.error, "JSON decode error for term: " ++ term⟩]))
    ∧ (∀ st body content, env (AsyncBidFTAScraper.build_url acfg term) = .response st body →
      st < 400 → body ≠ "" → find body = some content → loads content = none →
      AsyncBidFTAScraper.scrape_search_term acfg find loads env term
        = ([], [⟨.error, "Error processing search term: " ++ term⟩]))
    ∧ (∀ json_data, (itemsPath json_data = .error ()
        ∨ (∃ raw, itemsPath json_data = .ok raw ∧ pyIterate raw = none)) →
      extract_items_from_json json_data term
        = ([], [⟨.error, "Error extracting items"⟩]))
    ∧ (∀ json_data raw elems, itemsPath json_data = .ok raw →
      pyIterate raw = some elems →
      extract_items_from_json json_data term
        = ((elems.takeWhile isObjB).map (fun x => BidFTAItem.init (objFields x) term),
           if elems.any (fun x => !isObjB x) = true
           then [⟨.error, "Error extracting items"⟩] else [])) := by
  refine ⟨?_, ?_, ?_, ?_, ?_, ?_⟩
  · intro st body h1 h2 h3
    simp [BidFTAScraper.scrape_search_term, h1, h3, Nat.not_le.mpr h2]
  · intro st body h1 h2 h3 h4
    simp [AsyncBidFTAScraper.scrape_search_term, AsyncBidFTAScraper.fetch_page,
      h1, h3, h4, Nat.not_le.mpr h2]
  · intro st body content h1 h2 h3 h4
    simp [BidFTAScraper.scrape_search_term, h1, h3, h4, Nat.not_le.mpr h2]
  · intro st body content h1 h2 h3 h4 h5
    simp [AsyncBidFTAScraper.scrape_search_term, AsyncBidFTAScraper.fetch_page,
      h1, h3, h4, h5, Nat.not_le.mpr h2]
  · intro json_data h
    rcases h with h | ⟨raw, h1, h2⟩
    · simp [extract_items_from_json, h]
    · simp [extract_items_from_json, h1, h2]
  · intro json_data raw elems h1 h2
    have he := extractLoop_eq term elems
    simp [extract_items_from_json, h1, h2, he.1, he.2]

/-- Witness for the amended C1: concrete runs hitting the absent-script
branch of both scrapers and a traversal error on a non-dict payload. -/
theorem C1_extraction_never_raises_witness :
    (BidFTAScraper.scrape_search_term (BidFTAScraper.mkCfg "616" 2)
        (fun _ => none) (fun _ => some .null)
        (fun _ => FetchResult.response 200 "<p></p>") "fish" = ([], []))
    ∧ (AsyncBidFTAScraper.scrape_search_term (AsyncBidFTAScraper.mkCfg "616" (1/2) 5)
        (fun _ => none) (fun _ => some .null)
        (fun _ => FetchResult.response 200 "<p></p>") "fish"
      = ([], [⟨.warning, "No data found for search term: " ++ "fish"⟩]))
    ∧ (extract_items_from_json (.num 3) "fish"
      = ([], [⟨.error, "Error extracting items"⟩])) := by
  have h := C1_extraction_never_raises (BidFTAScraper.mkCfg "616" 2)
    (AsyncBidFTAScraper.mkCfg "616" (1/2) 5) (fun _ => none) (fun _ => some .null)
    (fun _ => FetchResult.response 200 "<p></p>") "fish"
  exact ⟨h.1 200 "<p></p>" rfl (by omega) rfl,
    h.2.1 200 "<p></p>" rfl (by omega) (by decide) rfl,
    h.2.2.2.2.1 (.num 3) (Or.inl rfl)⟩


theorem except_bind_ok {ε α β : Type} (x : α) (f : α → Except ε β) :
    (Except.ok x >>= f) = f x := rfl

theorem except_bind_error {ε α β : Type} (e : ε) (f : α → Except ε β) :
    ((Except.error e : Except ε α) >>= f) = .error e := rfl

/-- A successful column operation succeeds cellwise, in order. -/
theorem colMap_ok {α : Type} (f : BidFTAItem → Option α) (e : AggError) :
    ∀ {rows : List BidFTAItem} {l : List α}, colMap f e rows = .ok l →
      List.Forall₂ (fun r a => f r = some a) rows l := by
  intro rows
  induction rows with
  | nil =>
    intro l h
    simp only [colMap] at h
    injection h with h
    subst h
    exact .nil
  | cons x xs ih =>
    intro l h
    simp only [colMap] at h
    cases hx : f x with
    | none => rw [hx] at h; cases h
    | some a =>
      rw [hx] at h
      cases hrec : colMap f e xs with
      | error e2 => rw [hrec] at h; cases h
      | ok tl =>
        rw [hrec] at h
        simp only [Except.map] at h
        injection h with h
        subst h
        exact .cons hx (ih hrec)

/-- A cell failure anywhere in the column aborts the column operation. -/
theorem colMap_error_of_mem {α : Type} (f : BidFTAItem → Option α) (e : AggError) :
    ∀ {rows : List BidFTAItem} {r : BidFTAItem}, r ∈ rows → f r = none →
      colMap f e rows = .error e := by
  intro rows
  induction rows with
  | nil => intro r h; cases h
  | cons x xs ih =>
    intro r hmem hf
    cases hx : f x with
    | none => simp [colMap, hx]
    | some a =>
      rcases List.mem_cons.mp hmem with h | h
      · subst h; rw [hx] at hf; cases hf
      · simp [colMap, hx, ih h hf, Except.map]

/-- Rebuilt rows satisfy the per-column facts plus carried-over fields. -/
theorem buildRows_forall (parseDT : JsonVal → Option Timestamp) :
    ∀ {rows : List BidFTAItem} {dts : List Timestamp} {hrs : List ℚ}
      {cbs ms : List String},
    List.Forall₂ (fun r dt => parseDT r.end_datetime = some dt) rows dts →
    List.Forall₂ (fun r q =>
      (astypeFloat r.time_remaining).map (fun x => x / 3600) = some q) rows hrs →
    List.Forall₂ (fun r s => formatCurrencyVal r.current_bid = some s) rows cbs →
    List.Forall₂ (fun r s => formatCurrencyVal r.msrp = some s) rows ms →
    List.Forall₂ (fun (r : BidFTAItem) (o : OutRow) =>
      parseDT r.end_datetime = some o.end_datetime
      ∧ (astypeFloat r.time_remaining).map (fun q => q / 3600) = some o.hours_remaining
      ∧ formatCurrencyVal r.current_bid = some o.current_bid
      ∧ formatCurrencyVal r.msrp = some o.msrp
      ∧ o.title = r.title ∧ o.image_url = r.image_url
      ∧ o.time_remaining = r.time_remaining ∧ o.condition = r.condition
      ∧ o.lot_code = r.lot_code ∧ o.search_term = r.search_term
      ∧ o.bids_count = r.bids_count ∧ o.auction_id = r.auction_id)
      rows (buildRows rows dts hrs cbs ms) := by
  intro rows
  induction rows with
  | nil =>
    intro dts hrs cbs ms h1 _ _ _
    cases h1
    exact .nil
  | cons r rt ih =>
    intro dts hrs cbs ms h1 h2 h3 h4
    cases h1 with
    | cons ha h1t =>
      cases h2 with
      | cons hb h2t =>
        cases h3 with
        | cons hc h3t =>
          cases h4 with
          | cons hd h4t =>
            exact .cons ⟨ha, hb, hc, hd, rfl, rfl, rfl, rfl, rfl, rfl, rfl, rfl⟩
              (ih h1t h2t h3t h4t)

/-- Row-by-row characterization of a successful DataFrame block. -/
theorem processDF_ok_spec (parseDT : JsonVal → Option Timestamp)
    {rows : List BidFTAItem} {out : List OutRow}
    (h : processDF parseDT rows = .ok out) :
    List.Forall₂ (fun (r : BidFTAItem) (o : OutRow) =>
      parseDT r.end_datetime = some o.end_datetime
      ∧ (astypeFloat r.time_remaining).map (fun q => q / 3600) = some o.hours_remaining
      ∧ formatCurrencyVal r.current_bid = some o.current_bid
      ∧ formatCurrencyVal r.msrp = some o.msrp
      ∧ o.title = r.title ∧ o.image_url = r.image_url
      ∧ o.time_remaining = r.time_remaining ∧ o.condition = r.condition
      ∧ o.lot_code = r.lot_code ∧ o.search_term = r.search_term
      ∧ o.bids_count = r.bids_count ∧ o.auction_id = r.auction_id) rows out := by
  cases rows with
  | nil =>
    simp only [processDF] at h
    injection h with h
    subst h
    exact .nil
  | cons r0 rs0 =>
    simp only [processDF] at h
    cases hdts : colMap (fun r => parseDT r.end_datetime) .datetimeError (r0 :: rs0) with
    | error e => rw [hdts, except_bind_error] at h; cases h
    | ok dts =>
      rw [hdts, except_bind_ok] at h
      cases hhrs : colMap (fun r =>
          (astypeFloat r.time_remaining).map (fun q => q / 3600)) .floatError (r0 :: rs0) with
      | error e => rw [hhrs, except_bind_error] at h; cases h
      | ok hrs =>
        rw [hhrs, except_bind_ok] at h
        cases hcbs : colMap (fun r => formatCurrencyVal r.current_bid) .formatError
            (r0 :: rs0) with
        | error e => rw [hcbs, except_bind_error] at h; cases h
        | ok cbs =>
          rw [hcbs, except_bind_ok] at h
          cases hms : colMap (fun r => formatCurrencyVal r.msrp) .formatError
              (r0 :: rs0) with
          | error e => rw [hms, except_bind_error] at h; cases h
          | ok ms =>
            rw [hms, except_bind_ok] at h
            injection h with h
            subst h
            exact buildRows_forall parseDT (colMap_ok _ _ hdts) (colMap_ok _ _ hhrs)
              (colMap_ok _ _ hcbs) (colMap_ok _ _ hms)

/-- A timestamp cell that fails to parse aborts the whole DataFrame block:
the first column statement is the datetime parse, so its error wins. -/
theorem processDF_error_of_datetime (parseDT : JsonVal → Option Timestamp)
    {rows : List BidFTAItem}
    (hr : ∃ r ∈ rows, parseDT r.end_datetime = none) :
    processDF parseDT rows = .error .datetimeError := by
  obtain ⟨r, hmem, hnone⟩ := hr
  cases rows with
  | nil => cases hmem
  | cons x xs =>
    have hc := colMap_error_of_mem (fun r => parseDT r.end_datetime) .datetimeError
      hmem hnone
    simp only [processDF]
    rw [hc, except_bind_error]

/-- The accumulation loop of the sequential `scrape_search_terms`. -/
theorem scrape_terms_run_fst (cfg : ScraperCfg) (find : String → Option String)
    (loads : String → Option JsonVal) (env : String → FetchResult) :
    ∀ (terms : List String) (acc : List BidFTAItem × List LogEntry),
    (terms.foldl
      (fun (acc : List BidFTAItem × List LogEntry) (term : String) =>
        let r := BidFTAScraper.scrape_search_term cfg find loads env term
        (acc.1 ++ r.1, acc.2 ++ ⟨.info, "Scraping term: " ++ term⟩ :: r.2))
      acc).1
      = acc.1 ++ (terms.map
          (fun t => (BidFTAScraper.scrape_search_term cfg find loads env t).1)).flatten := by
  intro terms
  induction terms with
  | nil => intro acc; simp
  | cons t ts ih =>
    intro acc
    rw [List.foldl_cons]
    rw [ih]
    simp [List.append_assoc]

/-- The sequential run aggregates exactly the per-term record lists,
flattened in input order, through the shared DataFrame block. -/
theorem scrape_search_terms_fst (cfg : ScraperCfg) (find : String → Option String)
    (loads : String → Option JsonVal) (env : String → FetchResult)
    (parseDT : JsonVal → Option Timestamp) (terms : List String) :
    (BidFTAScraper.scrape_search_terms cfg find loads env parseDT terms).1
      = processDF parseDT ((terms.map
          (fun t => (BidFTAScraper.scrape_search_term cfg find loads env t).1)).flatten) :=
  congrArg (processDF parseDT)
    ((scrape_terms_run_fst cfg find loads env terms ([], [])).trans (List.nil_append _))

/-- Flattening loop of the concurrent `scrape_search_terms`. -/
theorem foldl_append_fst {α β : Type} :
    ∀ (rs : List (List α × β)) (acc : List α),
    rs.foldl (fun a r => a ++ r.1) acc = acc ++ (rs.map (fun r => r.1)).flatten := by
  intro rs
  induction rs with
  | nil => intro acc; simp
  | cons r rt ih =>
    intro acc
    rw [List.foldl_cons, ih]
    simp [List.append_assoc]

/-- The concurrent run aggregates the gathered per-task record lists in
slot order through the shared DataFrame block. -/
theorem async_scrape_search_terms_fst (cfg : AsyncScraperCfg)
    (find : String → Option String) (loads : String → Option JsonVal)
    (env : String → FetchResult) (parseDT : JsonVal → Option Timestamp)
    (terms : List String) (order : List ℕ) :
    (AsyncBidFTAScraper.scrape_search_terms cfg find loads env parseDT terms order).1
      = processDF parseDT (((gatherFill
          (terms.map (fun term =>
            AsyncBidFTAScraper.scrape_search_term cfg find loads env term))
          ([], []) order).map (fun r => r.1)).flatten) :=
  congrArg (processDF parseDT)
    ((foldl_append_fst _ []).trans (List.nil_append _))

/-- The fill loop of `gatherFill` preserves length. -/
theorem gatherFill_foldl_length {α : Type} (rs : List α) (dflt : α) :
    ∀ (order : List ℕ) (init : List α),
    (order.foldl (fun acc i => acc.set i (rs.getD i dflt)) init).length
      = init.length := by
  intro order
  induction order with
  | nil => intro init; rfl
  | cons j os ih => intro init; rw [List.foldl_cons, ih, List.length_set]

/-- Any slot that is either already correct or still to be filled ends up
holding the task's own result. -/
theorem gatherFill_getElem {α : Type} (rs : List α) (dflt : α) (j : ℕ) :
    ∀ (order : List ℕ) (acc : List α), acc.length = rs.length →
    (j ∈ order ∨ acc[j]? = rs[j]?) →
    (order.foldl (fun acc i => acc.set i (rs.getD i dflt)) acc)[j]? = rs[j]? := by
  intro order
  induction order with
  | nil =>
    intro acc _ hj
    rcases hj with hj | hj
    · cases hj
    · exact hj
  | cons i os ih =>
    intro acc hlen hj
    rw [List.foldl_cons]
    apply ih _ (by rw [List.length_set, hlen])
    by_cases hij : i = j
    · subst hij
      right
      rw [List.getElem?_set]
      simp only [if_pos rfl]
      by_cases hlt : i < acc.length
      · rw [if_pos hlt]
        rw [hlen] at hlt
        rw [List.getD_eq_getElem?_getD, List.getElem?_eq_getElem hlt]
        rfl
      · rw [if_neg hlt]
        rw [hlen] at hlt
        exact (List.getElem?_eq_none (Nat.le_of_not_lt hlt)).symm
    · rcases hj with hj | hj
      · rcases List.mem_cons.mp hj with h | h
        · exact absurd h.symm hij
        · exact Or.inl h
      · right
        rw [List.getElem?_set_ne hij]
        exact hj

/-- When every task index eventually completes, positional collection
reconstructs exactly the task-result list, whatever the completion order. -/
theorem gatherFill_complete {α : Type} (rs : List α) (dflt : α) (order : List ℕ)
    (hcov : ∀ i, i < rs.length → i ∈ order) : gatherFill rs dflt order = rs := by
  apply List.ext_getElem?
  intro n
  show ((order.foldl (fun acc i => acc.set i (rs.getD i dflt))
    (List.replicate rs.length dflt)))[n]? = rs[n]?
  by_cases hn : n < rs.length
  · exact gatherFill_getElem rs dflt n order _ (List.length_replicate _ _)
      (Or.inl (hcov n hn))
  · apply gatherFill_getElem rs dflt n order _ (List.length_replicate _ _)
    right
    rw [List.getElem?_eq_none (by rw [List.length_replicate]; omega),
      List.getElem?_eq_none (by omega)]

/-- Claim C5: on every non-empty record set the Aggregation step computes
per row `hours_remaining` = (`time_remaining` as a float) / 3600 and
reformats `current_bid` and `msrp` as two-decimal currency strings with
thousands separators; in particular `"3600"` seconds yield exactly 1.0
hours and the number 1234.5 formats as `"$1,234.50"`. -/
theorem C5_aggregation_derived_columns :
    (∀ (parseDT : JsonVal → Option Timestamp) (rows : List BidFTAItem)
      (out : List OutRow), processDF parseDT rows = .ok out →
      List.Forall₂ (fun (r : BidFTAItem) (o : OutRow) =>
        (astypeFloat r.time_remaining).map (fun q => q / 3600) = some o.hours_remaining
        ∧ formatCurrencyVal r.current_bid = some o.current_bid
        ∧ formatCurrencyVal r.msrp = some o.msrp) rows out)
    ∧ (astypeFloat (.str "3600")).map (fun q => q / 3600) = some 1
    ∧ formatCurrencyVal (.num (1234.5 : ℚ)) = some "$1,234.50" := by
  refine ⟨?_, ?_, ?_⟩
  · intro parseDT rows out h
    exact (processDF_ok_spec parseDT h).imp
      (fun r o hp => ⟨hp.2.1, hp.2.2.1, hp.2.2.2.1⟩)
  · have h1 : astypeFloat (.str "3600") = some (3600 : ℚ) := rfl
    rw [h1, Option.map_some']
    norm_num
  · show some (formatUSD (1234.5 : ℚ)) = some "$1,234.50"
    have h0 : formatUSD (1234.5 : ℚ) = "$1,234.50" := by
      have h1 : (1234.5 : ℚ) * 100 = 123450 := by norm_num
      unfold formatUSD
      rw [h1]
      have h2 : roundHalfEven (123450 : ℚ) = 123450 := by
        unfold roundHalfEven
        norm_num
      rw [h2]
      rfl
    rw [h0]

/-- Witness for C5: one record with `time_remaining="3600"` and
`current_bid=1234.5` processed by the Aggregation step. -/
theorem C5_aggregation_derived_columns_witness :
    List.Forall₂ (fun (r : BidFTAItem) (o : OutRow) =>
        (astypeFloat r.time_remaining).map (fun q => q / 3600) = some o.hours_remaining
        ∧ formatCurrencyVal r.current_bid = some o.current_bid
        ∧ formatCurrencyVal r.msrp = some o.msrp)
      [BidFTAItem.init
        [ ("itemTimeRemaining", JsonVal.str "3600")
        , ("currentBid", JsonVal.num (1234.5 : ℚ))
        , ("utcEndDateTime", JsonVal.str "2024-01-20T14:19:00Z") ] "test"]
      [{ title := .str "", current_bid := formatUSD (1234.5 : ℚ), image_url := .str ""
       , end_datetime := ⟨"2024-01-20T14:19:00Z"⟩, time_remaining := .str "3600"
       , msrp := formatUSD 0, condition := .str "", lot_code := .str ""
       , search_term := "test", bids_count := .num 0, auction_id := .str ""
       , hours_remaining := (3600 : ℚ) / 3600 }] :=
  C5_aggregation_derived_columns.1 parseDTStr _ _ rfl

/-- Claim C7: a timestamp cell that cannot be parsed makes the Aggregation
step fail the whole run: `processDF` errors, and the error propagates out
of `scrape_search_terms` in both scrapers — no row is dropped and no
fallback value is substituted. -/
theorem C7_datetime_parse_fatal :
    (∀ (parseDT : JsonVal → Option Timestamp) (rows : List BidFTAItem),
      (∃ r ∈ rows, parseDT r.end_datetime = none) →
      processDF parseDT rows = .error .datetimeError)
    ∧ (∀ cfg find loads env (parseDT : JsonVal → Option Timestamp)
        (terms : List String),
      (∃ t ∈ terms, ∃ r ∈ (BidFTAScraper.scrape_search_term cfg find loads env t).1,
        parseDT r.end_datetime = none) →
      (BidFTAScraper.scrape_search_terms cfg find loads env parseDT terms).1
        = .error .datetimeError)
    ∧ (∀ acfg find loads env (parseDT : JsonVal → Option Timestamp)
        (terms : List String) (order : List ℕ),
      (∀ i, i < terms.length → i ∈ order) →
      (∃ t ∈ terms,
        ∃ r ∈ (AsyncBidFTAScraper.scrape_search_term acfg find loads env t).1,
        parseDT r.end_datetime = none) →
      (AsyncBidFTAScraper.scrape_search_terms acfg find loads env parseDT
          terms order).1
        = .error .datetimeError) := by
  refine ⟨?_, ?_, ?_⟩
  · intro parseDT rows hr
    exact processDF_error_of_datetime parseDT hr
  · intro cfg find loads env parseDT terms hr
    rw [scrape_search_terms_fst]
    apply processDF_error_of_datetime
    obtain ⟨t, ht, r, hrmem, hnone⟩ := hr
    exact ⟨r, List.mem_flatten.mpr
      ⟨(BidFTAScraper.scrape_search_term cfg find loads env t).1,
        List.mem_map_of_mem _ ht, hrmem⟩, hnone⟩
  · intro acfg find loads env parseDT terms order hcov hr
    rw [async_scrape_search_terms_fst]
    rw [gatherFill_complete _ _ _ (by rw [List.length_map]; exact hcov)]
    apply processDF_error_of_datetime
    obtain ⟨t, ht, r, hrmem, hnone⟩ := hr
    refine ⟨r, List.mem_flatten.mpr
      ⟨(AsyncBidFTAScraper.scrape_search_term acfg find loads env t).1, ?_, hrmem⟩,
      hnone⟩
    rw [List.map_map]
    exact List.mem_map_of_mem _ ht

/-- Witness for C7: a parser that rejects every timestamp aborts the
processing of a one-record table. -/
theorem C7_datetime_parse_fatal_witness :
    processDF (fun _ => none) [BidFTAItem.init [] "x"] = .error .datetimeError :=
  C7_datetime_parse_fatal.1 (fun _ => none) [BidFTAItem.init [] "x"]
    ⟨BidFTAItem.init [] "x", by simp, rfl⟩


/-- Claim C2: sequential and concurrent modes agree modulo timing — given
the same per-term fetch+extract results, both runs build the same Result
Table: the per-term record lists flattened in the original input term
order, with `gather` collecting task results positionally regardless of
completion order. -/
theorem C2_sequential_concurrent_equiv (cfg : ScraperCfg) (acfg : AsyncScraperCfg)
    (find : String → Option String) (loads : String → Option JsonVal)
    (env : String → FetchResult) (parseDT : JsonVal → Option Timestamp)
    (terms : List String) (order : List ℕ)
    (hcov : ∀ i, i < terms.length → i ∈ order)
    (hagree : ∀ t ∈ terms,
      (AsyncBidFTAScraper.scrape_search_term acfg find loads env t).1
        = (BidFTAScraper.scrape_search_term cfg find loads env t).1) :
    (AsyncBidFTAScraper.scrape_search_terms acfg find loads env parseDT terms order).1
      = (BidFTAScraper.scrape_search_terms cfg find loads env parseDT terms).1 := by
  rw [async_scrape_search_terms_fst, scrape_search_terms_fst]
  rw [gatherFill_complete _ _ _ (by rw [List.length_map]; exact hcov)]
  have hmaps : (terms.map (fun term =>
        AsyncBidFTAScraper.scrape_search_term acfg find loads env term)).map
        (fun r => r.1)
      = terms.map (fun t => (BidFTAScraper.scrape_search_term cfg find loads env t).1) := by
    rw [List.map_map]
    exact List.map_congr_left (fun t ht => hagree t ht)
  rw [hmaps]

/-- Witness for C2: two terms, completion order reversed, identical tables. -/
theorem C2_sequential_concurrent_equiv_witness :
    (AsyncBidFTAScraper.scrape_search_terms (AsyncBidFTAScraper.mkCfg "616" (1/2) 5)
        (fun _ => none) (fun _ => some .null)
        (fun _ => FetchResult.response 200 "<p></p>") parseDTStr ["a", "b"] [1, 0]).1
      = (BidFTAScraper.scrape_search_terms (BidFTAScraper.mkCfg "616" 2)
        (fun _ => none) (fun _ => some .null)
        (fun _ => FetchResult.response 200 "<p></p>") parseDTStr ["a", "b"]).1 := by
  apply C2_sequential_concurrent_equiv
  · intro i hi
    have h2 : i < 2 := by simpa using hi
    interval_cases i <;> decide
  · intro t ht
    fin_cases ht <;> rfl

/-- Claim C6: a transport-level failure (connection error or non-success
status) on one term is logged and yields zero records for that term; each
term's outcome depends only on the transport outcome at its own URL, and
the whole run still aggregates the per-term lists — it is not aborted. -/
theorem C6_transport_failure_isolated :
    (∀ (cfg : ScraperCfg) find loads (env : String → FetchResult) (term : String),
      (env (BidFTAScraper.build_url cfg term) = .connError
        ∨ ∃ st body, env (BidFTAScraper.build_url cfg term) = .response st body
            ∧ 400 ≤ st) →
      BidFTAScraper.scrape_search_term cfg find loads env term
        = ([], [⟨.error, "Request error for term: " ++ term⟩]))
    ∧ (∀ (acfg : AsyncScraperCfg) find loads (env : String → FetchResult)
        (term : String),
      (env (AsyncBidFTAScraper.build_url acfg term) = .connError
        ∨ ∃ st body, env (AsyncBidFTAScraper.build_url acfg term) = .response st body
            ∧ 400 ≤ st) →
      AsyncBidFTAScraper.scrape_search_term acfg find loads env term
        = ([], [⟨.error, "Error fetching " ++ AsyncBidFTAScraper.build_url acfg term⟩]))
    ∧ (∀ (cfg : ScraperCfg) find loads (env env2 : String → FetchResult)
        (term : String),
      env (BidFTAScraper.build_url cfg term) = env2 (BidFTAScraper.build_url cfg term) →
      BidFTAScraper.scrape_search_term cfg find loads env term
        = BidFTAScraper.scrape_search_term cfg find loads env2 term)
    ∧ (∀ (acfg : AsyncScraperCfg) find loads (env env2 : String → FetchResult)
        (term : String),
      env (AsyncBidFTAScraper.build_url acfg term)
          = env2 (AsyncBidFTAScraper.build_url acfg term) →
      AsyncBidFTAScraper.scrape_search_term acfg find loads env term
        = AsyncBidFTAScraper.scrape_search_term acfg find loads env2 term)
    ∧ (∀ (cfg : ScraperCfg) find loads (env : String → FetchResult)
        (parseDT : JsonVal → Option Timestamp) (terms : List String),
      (BidFTAScraper.scrape_search_terms cfg find loads env parseDT terms).1
        = processDF parseDT ((terms.map (fun t =>
            (BidFTAScraper.scrape_search_term cfg find loads env t).1)).flatten)) := by
  refine ⟨?_, ?_, ?_, ?_, ?_⟩
  · intro cfg find loads env term h
    rcases h with h | ⟨st, body, h, hst⟩
    · simp [BidFTAScraper.scrape_search_term, h]
    · simp [BidFTAScraper.scrape_search_term, h, hst]
  · intro acfg find loads env term h
    rcases h with h | ⟨st, body, h, hst⟩
    · simp [AsyncBidFTAScraper.scrape_search_term, AsyncBidFTAScraper.fetch_page, h]
    · simp [AsyncBidFTAScraper.scrape_search_term, AsyncBidFTAScraper.fetch_page,
        h, hst]
  · intro cfg find loads env env2 term h
    simp only [BidFTAScraper.scrape_search_term, h]
  · intro acfg find loads env env2 term h
    simp only [AsyncBidFTAScraper.scrape_search_term, AsyncBidFTAScraper.fetch_page, h]
  · intro cfg find loads env parseDT terms
    exact scrape_search_terms_fst cfg find loads env parseDT terms

/-- Witness for C6: a run whose every fetch fails yields the error log and
zero records in both scrapers, and locality applied to one environment. -/
theorem C6_transport_failure_isolated_witness :
    (BidFTAScraper.scrape_search_term (BidFTAScraper.mkCfg "616" 2)
        (fun _ => none) (fun _ => some .null) (fun _ => FetchResult.connError) "lamp"
      = ([], [⟨.error, "Request error for term: " ++ "lamp"⟩]))
    ∧ (AsyncBidFTAScraper.scrape_search_term (AsyncBidFTAScraper.mkCfg "616" (1/2) 5)
        (fun _ => none) (fun _ => some .null) (fun _ => FetchResult.connError) "lamp"
      = ([], [⟨.error, "Error fetching "
          ++ AsyncBidFTAScraper.build_url (AsyncBidFTAScraper.mkCfg "616" (1/2) 5)
              "lamp"⟩]))
    ∧ (BidFTAScraper.scrape_search_term (BidFTAScraper.mkCfg "616" 2)
        (fun _ => none) (fun _ => some .null)
        (fun _ => FetchResult.response 500 "oops") "lamp"
      = ([], [⟨.error, "Request error for term: " ++ "lamp"⟩])) := by
  refine ⟨?_, ?_, ?_⟩
  · exact C6_transport_failure_isolated.1 _ _ _ _ "lamp" (Or.inl rfl)
  · exact C6_transport_failure_isolated.2.1 _ _ _ _ "lamp" (Or.inl rfl)
  · exact C6_transport_failure_isolated.1 _ _ _ _ "lamp"
      (Or.inr ⟨500, "oops", rfl, by omega⟩)

/-- Claim C8: on an empty Result Table, the Output Step of both scrapers
only logs "No items found": it prints no header, accesses no display or
derived column, and writes no file even when a save path is supplied. -/
theorem C8_empty_output (save_path : Option String) :
    format_results [] save_path
      = { logs := [⟨.info, "No items found"⟩], printed := [], displayed := []
        , file_writes := [] }
    ∧ format_async_results [] save_path
      = { logs := [⟨.info, "No items found"⟩], printed := [], displayed := []
        , file_writes := [] } :=
  ⟨rfl, rfl⟩


theorem holders_cons (x : Phase) (l : List Phase) :
    holders (x :: l) = (if holdsSlot x then 1 else 0) + holders l := by
  by_cases hx : holdsSlot x <;>
    simp [holders, List.filter_cons, hx, Nat.add_comm]

/-- Replacing a slot exchanges the slot counts of the old and new phases. -/
theorem holders_set (p : Phase) :
    ∀ (s : List Phase) (i : ℕ) (q : Phase), s[i]? = some q →
    holders (s.set i p) + (if holdsSlot q then 1 else 0)
      = holders s + (if holdsSlot p then 1 else 0) := by
  intro s
  induction s with
  | nil => intro i q hq; cases hq
  | cons x xs ih =>
    intro i q hq
    cases i with
    | zero =>
      rw [List.getElem?_cons_zero] at hq
      injection hq with hq
      subst hq
      rw [List.set_cons_zero, holders_cons, holders_cons]
      omega
    | succ j =>
      rw [List.getElem?_cons_succ] at hq
      rw [List.set_cons_succ, holders_cons, holders_cons]
      have hih := ih j q hq
      omega

/-- Every scheduler step keeps the held-slot count within the semaphore
capacity. -/
theorem holders_le_of_step (N : ℕ) (s s2 : List Phase) (e : FetchEvent)
    (hstep : stepOn N s e = some s2) (hinv : holders s ≤ N) : holders s2 ≤ N := by
  cases e with
  | acquire i =>
    simp only [stepOn] at hstep
    by_cases hc : s[i]? = some Phase.idle ∧ holders s < N
    · rw [if_pos hc] at hstep
      injection hstep with hstep
      subst hstep
      have hset := holders_set .inFlight s i .idle hc.1
      simp [holdsSlot] at hset
      have hlt := hc.2
      omega
    · rw [if_neg hc] at hstep; cases hstep
  | respond i =>
    simp only [stepOn] at hstep
    by_cases hc : s[i]? = some Phase.inFlight
    · rw [if_pos hc] at hstep
      injection hstep with hstep
      subst hstep
      have hset := holders_set .responded s i .inFlight hc
      simp [holdsSlot] at hset
      omega
    · rw [if_neg hc] at hstep; cases hstep
  | failFetch i =>
    simp only [stepOn] at hstep
    by_cases hc : s[i]? = some Phase.inFlight
    · rw [if_pos hc] at hstep
      injection hstep with hstep
      subst hstep
      have hset := holders_set .failed s i .inFlight hc
      simp [holdsSlot] at hset
      omega
    · rw [if_neg hc] at hstep; cases hstep
  | startSleep i =>
    simp only [stepOn] at hstep
    by_cases hc : s[i]? = some Phase.responded
    · rw [if_pos hc] at hstep
      injection hstep with hstep
      subst hstep
      have hset := holders_set .sleeping s i .responded hc
      simp [holdsSlot] at hset
      omega
    · rw [if_neg hc] at hstep; cases hstep
  | wake i =>
    simp only [stepOn] at hstep
    by_cases hc : s[i]? = some Phase.sleeping
    · rw [if_pos hc] at hstep
      injection hstep with hstep
      subst hstep
      have hset := holders_set .reading s i .sleeping hc
      simp [holdsSlot] at hset
      omega
    · rw [if_neg hc] at hstep; cases hstep
  | release i =>
    simp only [stepOn] at hstep
    by_cases hc : s[i]? = some Phase.reading
    · rw [if_pos hc] at hstep
      injection hstep with hstep
      subst hstep
      have hset := holders_set .done s i .reading hc
      simp [holdsSlot] at hset
      omega
    · rw [if_neg hc] at hstep; cases hstep

/-- A whole schedule keeps the held-slot count within capacity. -/
theorem runTrace_holders_le (N : ℕ) :
    ∀ (tr : List FetchEvent) (s s2 : List Phase),
    runTrace N s tr = some s2 → holders s ≤ N → holders s2 ≤ N := by
  intro tr
  induction tr with
  | nil =>
    intro s s2 h hinv
    simp only [runTrace] at h
    injection h with h
    subst h
    exact hinv
  | cons e es ih =>
    intro s s2 h hinv
    simp only [runTrace] at h
    cases hstep : stepOn N s e with
    | none => rw [hstep] at h; cases h
    | some s1 =>
      rw [hstep] at h
      exact ih s1 s2 h (holders_le_of_step N s s1 e hstep hinv)

/-- How one step can change the slot of task `i`: either it is untouched,
or the event is the matching transition of `i` with its precondition. -/
theorem stepOn_char (N : ℕ) (s s2 : List Phase) (e : FetchEvent)
    (hstep : stepOn N s e = some s2) (i : ℕ) :
    s2[i]? = s[i]?
    ∨ (e = .acquire i ∧ s[i]? = some Phase.idle ∧ s2[i]? = some Phase.inFlight)
    ∨ (e = .respond i ∧ s[i]? = some Phase.inFlight ∧ s2[i]? = some Phase.responded)
    ∨ (e = .failFetch i ∧ s[i]? = some Phase.inFlight ∧ s2[i]? = some Phase.failed)
    ∨ (e = .startSleep i ∧ s[i]? = some Phase.responded ∧ s2[i]? = some Phase.sleeping)
    ∨ (e = .wake i ∧ s[i]? = some Phase.sleeping ∧ s2[i]? = some Phase.reading)
    ∨ (e = .release i ∧ s[i]? = some Phase.reading ∧ s2[i]? = some Phase.done) := by
  cases e with
  | acquire j =>
    simp only [stepOn] at hstep
    by_cases hc : s[j]? = some Phase.idle ∧ holders s < N
    · rw [if_pos hc] at hstep
      injection hstep with hstep
      subst hstep
      by_cases hij : j = i
      · subst hij
        obtain ⟨hc1, _⟩ := hc
        have hlt : j < s.length := (List.getElem?_eq_some.mp hc1).1
        right; left
        exact ⟨rfl, hc1, by rw [List.getElem?_set]; simp [hlt]⟩
      · exact Or.inl (List.getElem?_set_ne hij)
    · rw [if_neg hc] at hstep; cases hstep
  | respond j =>
    simp only [stepOn] at hstep
    by_cases hc : s[j]? = some Phase.inFlight
    · rw [if_pos hc] at hstep
      injection hstep with hstep
      subst hstep
      by_cases hij : j = i
      · subst hij
        have hlt : j < s.length := (List.getElem?_eq_some.mp hc).1
        right; right; left
        exact ⟨rfl, hc, by rw [List.getElem?_set]; simp [hlt]⟩
      · exact Or.inl (List.getElem?_set_ne hij)
    · rw [if_neg hc] at hstep; cases hstep
  | failFetch j =>
    simp only [stepOn] at hstep
    by_cases hc : s[j]? = some Phase.inFlight
    · rw [if_pos hc] at hstep
      injection hstep with hstep
      subst hstep
      by_cases hij : j = i
      · subst hij
        have hlt : j < s.length := (List.getElem?_eq_some.mp hc).1
        right; right; right; left
        exact ⟨rfl, hc, by rw [List.getElem?_set]; simp [hlt]⟩
      · exact Or.inl (List.getElem?_set_ne hij)
    · rw [if_neg hc] at hstep; cases hstep
  | startSleep j =>
    simp only [stepOn] at hstep
    by_cases hc : s[j]? = some Phase.responded
    · rw [if_pos hc] at hstep
      injection hstep with hstep
      subst hstep
      by_cases hij : j = i
      · subst hij
        have hlt : j < s.length := (List.getElem?_eq_some.mp hc).1
        right; right; right; right; left
        exact ⟨rfl, hc, by rw [List.getElem?_set]; simp [hlt]⟩
      · exact Or.inl (List.getElem?_set_ne hij)
    · rw [if_neg hc] at hstep; cases hstep
  | wake j =>
    simp only [stepOn] at hstep
    by_cases hc : s[j]? = some Phase.sleeping
    · rw [if_pos hc] at hstep
      injection hstep with hstep
      subst hstep
      by_cases hij : j = i
      · subst hij
        have hlt : j < s.length := (List.getElem?_eq_some.mp hc).1
        right; right; right; right; right; left
        exact ⟨rfl, hc, by rw [List.getElem?_set]; simp [hlt]⟩
      · exact Or.inl (List.getElem?_set_ne hij)
    · rw [if_neg hc] at hstep; cases hstep
  | release j =>
    simp only [stepOn] at hstep
    by_cases hc : s[j]? = some Phase.reading
    · rw [if_pos hc] at hstep
      injection hstep with hstep
      subst hstep
      by_cases hij : j = i
      · subst hij
        have hlt : j < s.length := (List.getElem?_eq_some.mp hc).1
        right; right; right; right; right; right
        exact ⟨rfl, hc, by rw [List.getElem?_set]; simp [hlt]⟩
      · exact Or.inl (List.getElem?_set_ne hij)
    · rw [if_neg hc] at hstep; cases hstep

/-- A phase class that a task can only enter through its trigger event is
witnessed in the schedule whenever the task ends inside the class. -/
theorem runTrace_entered (Q : Phase → Bool) (trigger : ℕ → FetchEvent) (i N : ℕ)
    (hQ : ∀ (s s2 : List Phase) (e : FetchEvent), stepOn N s e = some s2 →
      Q (s2[i]?.getD .idle) = true →
      Q (s[i]?.getD .idle) = true ∨ e = trigger i) :
    ∀ (tr : List FetchEvent) (s s2 : List Phase),
      runTrace N s tr = some s2 → Q (s2[i]?.getD .idle) = true →
      Q (s[i]?.getD .idle) = true ∨ trigger i ∈ tr := by
  intro tr
  induction tr with
  | nil =>
    intro s s2 h hq
    simp only [runTrace] at h
    injection h with h
    subst h
    exact Or.inl hq
  | cons e es ih =>
    intro s s2 h hq
    simp only [runTrace] at h
    cases hstep : stepOn N s e with
    | none => rw [hstep] at h; cases h
    | some s1 =>
      rw [hstep] at h
      rcases ih s1 s2 h hq with h1 | h1
      · rcases hQ s s1 e hstep h1 with h2 | h2
        · exact Or.inl h2
        · right; rw [h2]; exact List.mem_cons_self _ _
      · right; exact List.mem_cons_of_mem _ h1

theorem initTasks_getD (n i : ℕ) :
    ((initTasks n)[i]?.getD Phase.idle) = Phase.idle := by
  unfold initTasks
  rw [List.getElem?_replicate]
  by_cases h : i < n <;> simp [h]

theorem holders_init (n : ℕ) : holders (initTasks n) = 0 := by
  unfold initTasks
  induction n with
  | zero => rfl
  | succ m ih =>
    rw [List.replicate_succ, holders_cons, ih]
    rfl


/-- Claim C3: with `max_concurrent_requests = N`, along every schedule no
reachable state has more than N tasks between the semaphore acquire point
and the release point (the phases holding a slot are exactly `inFlight`,
`responded`, `sleeping`, `reading`); the pacing sleep starts only once the
task's response has returned (`responded`), the success-path release fires
only after the sleep has elapsed and the body been read (`reading`), and
every successfully finished task went through `respond`, `startSleep` and
`release` during the schedule. -/
theorem C3_semaphore_bound (N n : ℕ) (tr : List FetchEvent) (s2 : List Phase)
    (hrun : runTrace N (initTasks n) tr = some s2) :
    holders s2 ≤ N
    ∧ (∀ i, s2[i]? = some Phase.done →
        FetchEvent.respond i ∈ tr ∧ FetchEvent.startSleep i ∈ tr
          ∧ FetchEvent.release i ∈ tr)
    ∧ (∀ (s s3 : List Phase) (i : ℕ), stepOn N s (.startSleep i) = some s3 →
        s[i]? = some Phase.responded)
    ∧ (∀ (s s3 : List Phase) (i : ℕ), stepOn N s (.release i) = some s3 →
        s[i]? = some Phase.reading)
    ∧ holdsSlot .inFlight = true ∧ holdsSlot .responded = true
    ∧ holdsSlot .sleeping = true ∧ holdsSlot .reading = true
    ∧ holdsSlot .idle = false ∧ holdsSlot .done = false
    ∧ holdsSlot .failed = false := by
  refine ⟨?_, ?_, ?_, ?_, rfl, rfl, rfl, rfl, rfl, rfl, rfl⟩
  · exact runTrace_holders_le N tr _ s2 hrun (by rw [holders_init]; omega)
  · intro i hdone
    have hd : donePhase (s2[i]?.getD .idle) = true := by rw [hdone]; rfl
    have hp : pacedPhase (s2[i]?.getD .idle) = true := by rw [hdone]; rfl
    have hr : respondedPhase (s2[i]?.getD .idle) = true := by rw [hdone]; rfl
    refine ⟨?_, ?_, ?_⟩
    · have h1 := runTrace_entered respondedPhase FetchEvent.respond i N
        (by
          intro s s4 e hstep hq
          rcases stepOn_char N s s4 e hstep i with hid | hE | hE | hE | hE | hE | hE
          · rw [hid] at hq; exact Or.inl hq
          · rw [hE.2.2] at hq; simp [respondedPhase] at hq
          · exact Or.inr hE.1
          · rw [hE.2.2] at hq; simp [respondedPhase] at hq
          · exact Or.inl (by rw [hE.2.1]; rfl)
          · exact Or.inl (by rw [hE.2.1]; rfl)
          · exact Or.inl (by rw [hE.2.1]; rfl))
        tr _ s2 hrun hr
      rcases h1 with h | h
      · rw [initTasks_getD] at h; simp [respondedPhase] at h
      · exact h
    · have h1 := runTrace_entered pacedPhase FetchEvent.startSleep i N
        (by
          intro s s4 e hstep hq
          rcases stepOn_char N s s4 e hstep i with hid | hE | hE | hE | hE | hE | hE
          · rw [hid] at hq; exact Or.inl hq
          · rw [hE.2.2] at hq; simp [pacedPhase] at hq
          · rw [hE.2.2] at hq; simp [pacedPhase] at hq
          · rw [hE.2.2] at hq; simp [pacedPhase] at hq
          · exact Or.inr hE.1
          · exact Or.inl (by rw [hE.2.1]; rfl)
          · exact Or.inl (by rw [hE.2.1]; rfl))
        tr _ s2 hrun hp
      rcases h1 with h | h
      · rw [initTasks_getD] at h; simp [pacedPhase] at h
      · exact h
    · have h1 := runTrace_entered donePhase FetchEvent.release i N
        (by
          intro s s4 e hstep hq
          rcases stepOn_char N s s4 e hstep i with hid | hE | hE | hE | hE | hE | hE
          · rw [hid] at hq; exact Or.inl hq
          · rw [hE.2.2] at hq; simp [donePhase] at hq
          · rw [hE.2.2] at hq; simp [donePhase] at hq
          · rw [hE.2.2] at hq; simp [donePhase] at hq
          · rw [hE.2.2] at hq; simp [donePhase] at hq
          · rw [hE.2.2] at hq; simp [donePhase] at hq
          · exact Or.inr hE.1)
        tr _ s2 hrun hd
      rcases h1 with h | h
      · rw [initTasks_getD] at h; simp [donePhase] at h
      · exact h
  · intro s s3 i h
    by_cases hc : s[i]? = some Phase.responded
    · exact hc
    · simp [stepOn, hc] at h
  · intro s s3 i h
    by_cases hc : s[i]? = some Phase.reading
    · exact hc
    · simp [stepOn, hc] at h

/-- Witness for C3: a concrete schedule of three tasks under capacity 2 —
task 1 fails its fetch, the other two pace and finish; the final state
holds no slot and every finished task responded, slept and released. -/
theorem C3_semaphore_bound_witness :
    runTrace 2 (initTasks 3)
      [ FetchEvent.acquire 0, FetchEvent.acquire 1, FetchEvent.respond 0
      , FetchEvent.startSleep 0, FetchEvent.failFetch 1, FetchEvent.wake 0
      , FetchEvent.acquire 2, FetchEvent.release 0, FetchEvent.respond 2
      , FetchEvent.startSleep 2, FetchEvent.wake 2, FetchEvent.release 2 ]
      = some [Phase.done, Phase.failed, Phase.done]
    ∧ holders [Phase.done, Phase.failed, Phase.done] ≤ 2
    ∧ FetchEvent.respond 0 ∈
        [ FetchEvent.acquire 0, FetchEvent.acquire 1, FetchEvent.respond 0
        , FetchEvent.startSleep 0, FetchEvent.failFetch 1, FetchEvent.wake 0
        , FetchEvent.acquire 2, FetchEvent.release 0, FetchEvent.respond 2
        , FetchEvent.startSleep 2, FetchEvent.wake 2, FetchEvent.release 2 ]
    ∧ FetchEvent.startSleep 0 ∈
        [ FetchEvent.acquire 0, FetchEvent.acquire 1, FetchEvent.respond 0
        , FetchEvent.startSleep 0, FetchEvent.failFetch 1, FetchEvent.wake 0
        , FetchEvent.acquire 2, FetchEvent.release 0, FetchEvent.respond 2
        , FetchEvent.startSleep 2, FetchEvent.wake 2, FetchEvent.release 2 ]
    ∧ FetchEvent.release 0 ∈
        [ FetchEvent.acquire 0, FetchEvent.acquire 1, FetchEvent.respond 0
        , FetchEvent.startSleep 0, FetchEvent.failFetch 1, FetchEvent.wake 0
        , FetchEvent.acquire 2, FetchEvent.release 0, FetchEvent.respond 2
        , FetchEvent.startSleep 2, FetchEvent.wake 2, FetchEvent.release 2 ] := by
  have h := C3_semaphore_bound 2 3
    [ FetchEvent.acquire 0, FetchEvent.acquire 1, FetchEvent.respond 0
    , FetchEvent.startSleep 0, FetchEvent.failFetch 1, FetchEvent.wake 0
    , FetchEvent.acquire 2, FetchEvent.release 0, FetchEvent.respond 2
    , FetchEvent.startSleep 2, FetchEvent.wake 2, FetchEvent.release 2 ]
    [Phase.done, Phase.failed, Phase.done] (by decide)
  exact ⟨by decide, h.1, (h.2.1 0 rfl).1, (h.2.1 0 rfl).2.1, (h.2.1 0 rfl).2.2⟩

end BidFTA
